import Mathlib

/-!
Shallow embedding of the WebSocket connection manager in
backend/internal/websocket/manager.go.

Go maps are modelled as association lists; Go pointers to Client structs
are modelled as numeric references into a heap (an association list from
reference to Client), so that the primary map and the per-user index can
alias the same mutable client, exactly as the two Go maps hold the same
pointer.  A buffered channel is modelled as a bounded FIFO queue with a
closed flag; closeCount counts how many times close() was invoked on it
(in Go a second close of the same channel is a runtime panic).  The
manager goroutine serializes register/unregister/broadcast, and the other
entry points run under the manager mutex, so every operation is modelled
as an atomic state transformer.
-/

/-- Lookup in an association list, first match wins (a Go map has at most
one entry per key, and every update in this model goes through aset,
which keeps keys unique when starting from the empty map). -/
def alookup {α β : Type} [DecidableEq α] : List (α × β) → α → Option β
  | [], _ => none
  | (k, v) :: rest, k' => if k = k' then some v else alookup rest k'

/-- Remove every entry with the given key (models delete on a Go map). -/
def aerase {α β : Type} [DecidableEq α] : List (α × β) → α → List (α × β)
  | [], _ => []
  | (k, v) :: rest, k' => if k = k' then aerase rest k' else (k, v) :: aerase rest k'

/-- Insert or overwrite the entry for a key (models assignment m[k] = v). -/
def aset {α β : Type} [DecidableEq α] (l : List (α × β)) (k : α) (v : β) : List (α × β) :=
  aerase l k ++ [(k, v)]

/-- Payload carried in the Data field of a wire message; Go declares it as
interface holding decoded JSON, so a small JSON value type stands in. -/
inductive DataVal where
  | vnull : DataVal
  | vstr : String → DataVal
  | vnum : Int → DataVal
  | vbool : Bool → DataVal
  | vobj : List (String × DataVal) → DataVal

def TypeDeviceData : String := "device_data"

def TypeDeviceStatus : String := "device_status"

def TypeNotification : String := "notification"

def TypeHeartbeat : String := "heartbeat"

def TypeSubscribe : String := "subscribe"

def TypeUnsubscribe : String := "unsubscribe"

def TypeError : String := "error"

def emptyStr : String := ""

def deviceIdKey : String := "device_id"

def messageKey : String := "message"

def statusKey : String := "status"

def connectedText : String := "Connected successfully"

def subscribedText : String := "Subscribed successfully"

def aliveText : String := "alive"

/-- Wire message (struct Message): Type, Data, Error, Timestamp, ID.
MessageType is a Go string type, so plain String here; time.Time is
modelled as a Nat tick supplied by the caller where the Go code calls
time.Now(). -/
structure Message where
  type : String
  data : DataVal
  error : String
  timestamp : Nat
  id : String

/-- Bounded outbound mailbox, modelling the buffered channel Send of a
client (make(chan Message, 256) in HandleWebSocket).  closeCount records
how many times close() has been called on the channel; in Go the second
close is a runtime panic, so a reachable closeCount of 2 is a crash. -/
structure Mailbox where
  cap : Nat
  queue : List Message
  closed : Bool
  closeCount : Nat

/-- Non-blocking send, the pattern select case ch <- m default.  It
succeeds exactly when the channel is open and the buffer has room (no
receiver is modelled: the writer goroutine drains asynchronously, and the
claims are about the dispatch-time buffer check).  A send on a closed
channel panics in Go; it is modelled as taking the default branch, which
only matters in states that are already past the double-close bug
exhibited below. -/
def tryEnqueue (mb : Mailbox) (msg : Message) : Bool × Mailbox :=
  if mb.closed = false ∧ mb.queue.length < mb.cap then
    (true, { mb with queue := mb.queue ++ [msg] })
  else
    (false, mb)

/-- Invocation of close() on the channel. -/
def closeMailbox (mb : Mailbox) : Mailbox :=
  { mb with closed := true, closeCount := mb.closeCount + 1 }

/-- A mailbox whose buffer is at capacity (a saturated channel). -/
def isFull (mb : Mailbox) : Prop := mb.cap ≤ mb.queue.length

/-- Client (struct Client): ID, UserID (uint, 0 means anonymous), the
Send mailbox, and the Subscriptions set of device ids (map[string]bool
with only true values, hence a finite set, here a duplicate-free list). -/
structure Client where
  ID : String
  UserID : Nat
  Send : Mailbox
  Subscriptions : List String

/-- Manager (struct Manager): clients is the primary map from client id
to client, userClients groups clients by user id.  Both store pointers in
Go; here both store references into the heap. -/
structure Manager where
  heap : List (Nat × Client)
  clients : List (String × Nat)
  userClients : List (Nat × List (String × Nat))

def heapGet (h : List (Nat × Client)) (r : Nat) : Option Client := alookup h r

def heapSet (h : List (Nat × Client)) (r : Nat) (c : Client) : List (Nat × Client) :=
  aset h r c

/-- Welcome message built in registerClient. -/
def welcomeMsg (now : Nat) : Message :=
  { type := TypeNotification
    data := DataVal.vobj [(messageKey, DataVal.vstr connectedText)]
    error := emptyStr
    timestamp := now
    id := emptyStr }

/-- Acknowledgement message built in handleSubscribe. -/
def subscribeAck (d : String) (now : Nat) : Message :=
  { type := TypeNotification
    data := DataVal.vobj [(messageKey, DataVal.vstr subscribedText), (deviceIdKey, DataVal.vstr d)]
    error := emptyStr
    timestamp := now
    id := emptyStr }

/-- Heartbeat response built in handleHeartbeat. -/
def heartbeatResp (now : Nat) : Message :=
  { type := TypeHeartbeat
    data := DataVal.vobj [(statusKey, DataVal.vstr aliveText)]
    error := emptyStr
    timestamp := now
    id := emptyStr }

/-- registerClient: insert the client into the primary map and into its
user's group, then attempt a non-blocking enqueue of the welcome message;
if that fails the channel is closed and the client is left in both maps.
The reference r names the client being registered; now stands for the
time.Now() of the welcome message. -/
def registerClient (m : Manager) (r : Nat) (now : Nat) : Manager :=
  match heapGet m.heap r with
  | none => m
  | some c =>
    let clients2 := aset m.clients c.ID r
    let sub := (alookup m.userClients c.UserID).getD []
    let userClients2 := aset m.userClients c.UserID (aset sub c.ID r)
    let res := tryEnqueue c.Send (welcomeMsg now)
    let c2 := if res.1 then { c with Send := res.2 } else { c with Send := closeMailbox c.Send }
    { heap := heapSet m.heap r c2, clients := clients2, userClients := userClients2 }

/-- unregisterClient: if the client's id is still in the primary map,
remove it from the primary map and from its user's group (dropping the
group when it empties) and close the channel; otherwise do nothing. -/
def unregisterClient (m : Manager) (r : Nat) : Manager :=
  match heapGet m.heap r with
  | none => m
  | some c =>
    if (alookup m.clients c.ID).isSome then
      let clients2 := aerase m.clients c.ID
      let userClients2 :=
        match alookup m.userClients c.UserID with
        | some sub =>
          let sub2 := aerase sub c.ID
          if sub2.isEmpty then aerase m.userClients c.UserID
          else aset m.userClients c.UserID sub2
        | none => m.userClients
      { heap := heapSet m.heap r { c with Send := closeMailbox c.Send }
        clients := clients2
        userClients := userClients2 }
    else m

/-- One iteration of the broadcastMessage loop body for entry e of the
clients map: non-blocking enqueue, and on failure close the channel and
delete the client from the primary map (only). -/
def broadcastStep (st : Manager) (msg : Message) (e : String × Nat) : Manager :=
  match heapGet st.heap e.2 with
  | none => st
  | some c =>
    let res := tryEnqueue c.Send msg
    if res.1 then { st with heap := heapSet st.heap e.2 { c with Send := res.2 } }
    else
      { heap := heapSet st.heap e.2 { c with Send := closeMailbox c.Send }
        clients := aerase st.clients c.ID
        userClients := st.userClients }

def broadcastLoop (msg : Message) : List (String × Nat) → Manager → Manager
  | [], st => st
  | e :: rest, st => broadcastLoop msg rest (broadcastStep st msg e)

/-- broadcastMessage: iterate over the entries of the primary map. -/
def broadcastMessage (m : Manager) (msg : Message) : Manager :=
  broadcastLoop msg m.clients m

/-- Shared loop body of SendToUser and SendToDevice: non-blocking enqueue
into the client at reference r, closing the channel on failure; no map is
touched. -/
def dispatchStep (st : Manager) (msg : Message) (r : Nat) : Manager :=
  match heapGet st.heap r with
  | none => st
  | some c =>
    let res := tryEnqueue c.Send msg
    if res.1 then { st with heap := heapSet st.heap r { c with Send := res.2 } }
    else { st with heap := heapSet st.heap r { c with Send := closeMailbox c.Send } }

def sendToUserLoop (msg : Message) : List (String × Nat) → Manager → List Nat → Manager × List Nat
  | [], st, acc => (st, acc)
  | e :: rest, st, acc => sendToUserLoop msg rest (dispatchStep st msg e.2) (acc ++ [e.2])

/-- SendToUser: deliver to every client of the group userClients[userID];
a missing group is a no-op.  The second component records the references
to which an enqueue was attempted, in iteration order. -/
def SendToUser (m : Manager) (userID : Nat) (msg : Message) : Manager × List Nat :=
  match alookup m.userClients userID with
  | none => (m, [])
  | some sub => sendToUserLoop msg sub m []

def sendToDeviceLoop (d : String) (msg : Message) :
    List (String × Nat) → Manager → List Nat → Manager × List Nat
  | [], st, acc => (st, acc)
  | e :: rest, st, acc =>
    match heapGet st.heap e.2 with
    | none => sendToDeviceLoop d msg rest st acc
    | some c =>
      if c.Subscriptions.contains d then
        sendToDeviceLoop d msg rest (dispatchStep st msg e.2) (acc ++ [e.2])
      else
        sendToDeviceLoop d msg rest st acc

/-- SendToDevice: deliver to every client of the primary map whose
subscription set contains the device id.  The second component records
the references to which an enqueue was attempted. -/
def SendToDevice (m : Manager) (d : String) (msg : Message) : Manager × List Nat :=
  sendToDeviceLoop d msg m.clients m []

/-- Non-blocking enqueue into the client's own mailbox with an empty
default branch: the handlers drop the reply on a full mailbox and do not
close the channel. -/
def clientEnqueueOwn (m : Manager) (r : Nat) (msg : Message) : Manager :=
  match heapGet m.heap r with
  | none => m
  | some c =>
    let res := tryEnqueue c.Send msg
    if res.1 then { m with heap := heapSet m.heap r { c with Send := res.2 } } else m

/-- handleSubscribe: require Data to be an object whose device_id field
is a string; add it to the subscription set and enqueue (drop-on-full) an
acknowledgement; any other shape is silently ignored. -/
def handleSubscribe (m : Manager) (r : Nat) (now : Nat) (msg : Message) : Manager :=
  match msg.data with
  | DataVal.vobj fields =>
    match alookup fields deviceIdKey with
    | some (DataVal.vstr d) =>
      match heapGet m.heap r with
      | none => m
      | some c =>
        let subs2 := if c.Subscriptions.contains d then c.Subscriptions
          else c.Subscriptions ++ [d]
        clientEnqueueOwn { m with heap := heapSet m.heap r { c with Subscriptions := subs2 } }
          r (subscribeAck d now)
    | _ => m
  | _ => m

/-- handleUnsubscribe: same shape requirement; remove the device id from
the subscription set; no acknowledgement is sent. -/
def handleUnsubscribe (m : Manager) (r : Nat) (msg : Message) : Manager :=
  match msg.data with
  | DataVal.vobj fields =>
    match alookup fields deviceIdKey with
    | some (DataVal.vstr d) =>
      match heapGet m.heap r with
      | none => m
      | some c =>
        let c2 := { c with Subscriptions := c.Subscriptions.filter (fun s => !(s == d)) }
        { m with heap := heapSet m.heap r c2 }
    | _ => m
  | _ => m

/-- handleHeartbeat: enqueue (drop-on-full) a heartbeat response. -/
def handleHeartbeat (m : Manager) (r : Nat) (now : Nat) : Manager :=
  clientEnqueueOwn m r (heartbeatResp now)

/-- handleMessage: dispatch on the message type; every other type,
well-formed or not, is only logged and otherwise ignored — in particular
no error-typed reply is ever produced (TypeError is never sent). -/
def handleMessage (m : Manager) (r : Nat) (now : Nat) (msg : Message) : Manager :=
  if msg.type = TypeSubscribe then handleSubscribe m r now msg
  else if msg.type = TypeUnsubscribe then handleUnsubscribe m r msg
  else if msg.type = TypeHeartbeat then handleHeartbeat m r now
  else m

/-- Outcome of one Conn.ReadJSON call in the readPump loop: a transport
failure, a frame that does not decode into a Message (ReadJSON returns an
error in both cases, indistinguishably), or a decoded frame. -/
inductive ReadResult where
  | transportError : ReadResult
  | parseFailure : ReadResult
  | frame : Message → ReadResult

/-- One iteration of readPump: on any ReadJSON error the loop breaks and
the deferred function hands the client to the unregister channel; on a
decoded frame, handleMessage runs and the loop continues.  The Bool is
true when the loop continues (session not torn down by this step). -/
def readPumpStep (m : Manager) (r : Nat) (now : Nat) (input : ReadResult) : Manager × Bool :=
  match input with
  | ReadResult.transportError => (unregisterClient m r, false)
  | ReadResult.parseFailure => (unregisterClient m r, false)
  | ReadResult.frame msg => (handleMessage m r now msg, true)

def charset : String := "abcdefghijklmnopqrstuvwxyzABCDEFGHIJKLMNOPQRSTUVWXYZ0123456789"

/-- One character of generateRandomString: charset indexed by a reading
of time.Now().UnixNano() modulo the charset length. -/
def randomChar (n : Nat) : Char :=
  charset.toList.getD (n % charset.toList.length) 'a'

/-- generateRandomString: the Go loop reads the clock once per position;
the successive UnixNano readings are passed in as a list. -/
def generateRandomString (nanos : List Nat) : String :=
  String.mk (nanos.map randomChar)

/-- generateClientID: second-resolution formatted timestamp, a dash, and
the eight-character clock-derived suffix. -/
def generateClientID (ts : String) (nanos : List Nat) : String :=
  ts ++ "-" ++ generateRandomString nanos

/-- Subscription set of the client at reference r. -/
def subsOf (h : List (Nat × Client)) (r : Nat) : List String :=
  match heapGet h r with
  | some c => c.Subscriptions
  | none => []

/-- Mailbox contents of the client at reference r. -/
def queueOf (h : List (Nat × Client)) (r : Nat) : List Message :=
  match heapGet h r with
  | some c => c.Send.queue
  | none => []

/-- Closed flag of the mailbox of the client at reference r. -/
def closedOf (h : List (Nat × Client)) (r : Nat) : Bool :=
  match heapGet h r with
  | some c => c.Send.closed
  | none => false

/-- Number of close() calls performed on the mailbox at reference r. -/
def closeCountOf (h : List (Nat × Client)) (r : Nat) : Nat :=
  match heapGet h r with
  | some c => c.Send.closeCount
  | none => 0

/-- Whether the client at reference r currently subscribes to device d. -/
def subscribedB (h : List (Nat × Client)) (r : Nat) (d : String) : Bool :=
  match heapGet h r with
  | some c => c.Subscriptions.contains d
  | none => false

/-- User id recorded for the client at reference r. -/
def userOf (h : List (Nat × Client)) (r : Nat) : Option Nat :=
  (heapGet h r).map (fun c => c.UserID)

/-- Two-map consistency of the registry: every primary-map entry appears
in some user group, and every group entry appears in the primary map with
the same reference. -/
def Consistent (m : Manager) : Prop :=
  (∀ p ∈ m.clients, ∃ q ∈ m.userClients, alookup q.2 p.1 = some p.2) ∧
  (∀ q ∈ m.userClients, ∀ p ∈ q.2, alookup m.clients p.1 = some p.2)

/-- Index well-formedness: a client stored under user group u has user id
u (trivially true of groups built by registerClient). -/
def IndexWF (m : Manager) : Prop :=
  ∀ q ∈ m.userClients, ∀ p ∈ q.2, (userOf m.heap p.2).getD q.1 = q.1

/-- Inbound subscribe frame for device d, as decoded by ReadJSON. -/
def subscribeMsg (d : String) : Message :=
  { type := TypeSubscribe
    data := DataVal.vobj [(deviceIdKey, DataVal.vstr d)]
    error := emptyStr
    timestamp := 0
    id := emptyStr }

/-- Inbound unsubscribe frame for device d. -/
def unsubscribeMsg (d : String) : Message :=
  { type := TypeUnsubscribe
    data := DataVal.vobj [(deviceIdKey, DataVal.vstr d)]
    error := emptyStr
    timestamp := 0
    id := emptyStr }

def idA : String := "a"

def idB : String := "b"

def devD1 : String := "d1"

/-- A plain payload message used as concrete dispatch input. -/
def msgA : Message :=
  { type := TypeDeviceData
    data := DataVal.vnull
    error := emptyStr
    timestamp := 0
    id := emptyStr }

/-- A mailbox at the capacity HandleWebSocket allocates (256), saturated. -/
def fullBox : Mailbox :=
  { cap := 256, queue := List.replicate 256 msgA, closed := false, closeCount := 0 }

/-- A fresh empty mailbox at capacity 256. -/
def emptyBox : Mailbox :=
  { cap := 256, queue := [], closed := false, closeCount := 0 }

/-- Client with a saturated mailbox, user 5, subscribed to d1. -/
def clientFullA : Client :=
  { ID := idA, UserID := 5, Send := fullBox, Subscriptions := [devD1] }

/-- Manager state holding clientFullA registered in both maps. -/
def mFull : Manager :=
  { heap := [(1, clientFullA)]
    clients := [(idA, 1)]
    userClients := [(5, [(idA, 1)])] }

/-- Client with room in its mailbox, user 5, subscribed to d1. -/
def clientFreshA : Client :=
  { ID := idA, UserID := 5, Send := emptyBox, Subscriptions := [devD1] }

/-- Manager state holding clientFreshA registered in both maps. -/
def mFresh : Manager :=
  { heap := [(1, clientFreshA)]
    clients := [(idA, 1)]
    userClients := [(5, [(idA, 1)])] }

/-- Anonymous client: the identity collaborator resolved no identity, so
getUserIDFromContext returned 0. -/
def clientAnon : Client :=
  { ID := idB, UserID := 0, Send := emptyBox, Subscriptions := [] }

/-- Manager with only the anonymous client allocated, not yet registered. -/
def mAnonPre : Manager :=
  { heap := [(7, clientAnon)], clients := [], userClients := [] }

/-- Two distinct clients that were assigned the same id. -/
def clientDupOld : Client :=
  { ID := idA, UserID := 1, Send := emptyBox, Subscriptions := [] }

def clientDupNew : Client :=
  { ID := idA, UserID := 2, Send := emptyBox, Subscriptions := [] }

/-- Manager with the two same-id clients allocated, not yet registered. -/
def mDupPre : Manager :=
  { heap := [(1, clientDupOld), (2, clientDupNew)], clients := [], userClients := [] }

def devD2 : String := "d2"

/-- Manager holding an identified client (user 5) and an anonymous one. -/
def mMixed : Manager :=
  { heap := [(1, clientFreshA), (7, clientAnon)]
    clients := [(idA, 1), (idB, 7)]
    userClients := [(5, [(idA, 1)]), (0, [(idB, 7)])] }

/-- Invariant used to trace a saturated client through the broadcast
loop: its id is either already gone from the primary map, or still mapped
to reference r whose client has this id and a saturated mailbox. -/
def BCInv (st : Manager) (id : String) (r : Nat) : Prop :=
  alookup st.clients id = none ∨
    (alookup st.clients id = some r ∧
      ∃ c, heapGet st.heap r = some c ∧ c.ID = id ∧ isFull c.Send)

theorem alookup_aerase {α β : Type} [DecidableEq α] (l : List (α × β)) (k k' : α) :
    alookup (aerase l k) k' = if k' = k then none else alookup l k' := by
  induction l with
  | nil => simp [aerase, alookup]
  | cons p rest ih =>
    obtain ⟨pk, pv⟩ := p
    simp only [aerase, alookup]
    split_ifs with h1 h2 h3 h2 h3
    · rw [ih, if_pos h2]
    · exact absurd (h3.symm.trans h1) h2
    · rw [ih, if_neg h2]
    · simp only [alookup]
      rw [if_neg fun he => h1 (he.trans h2), ih, if_pos h2]
    · simp only [alookup]
      rw [if_pos h3]
    · simp only [alookup]
      rw [if_neg h3, ih, if_neg h2]

theorem alookup_append_some {α β : Type} [DecidableEq α] {l₁ l₂ : List (α × β)} {k : α}
    {v : β} (h : alookup l₁ k = some v) : alookup (l₁ ++ l₂) k = some v := by
  induction l₁ with
  | nil => simp [alookup] at h
  | cons p rest ih =>
    obtain ⟨pk, pv⟩ := p
    simp only [alookup, List.cons_append] at h ⊢
    by_cases hk : pk = k
    · rw [if_pos hk] at h ⊢
      exact h
    · rw [if_neg hk] at h ⊢
      exact ih h

theorem alookup_append_none {α β : Type} [DecidableEq α] {l₁ : List (α × β)}
    (l₂ : List (α × β)) {k : α} (h : alookup l₁ k = none) :
    alookup (l₁ ++ l₂) k = alookup l₂ k := by
  induction l₁ with
  | nil => simp [alookup]
  | cons p rest ih =>
    obtain ⟨pk, pv⟩ := p
    simp only [alookup, List.cons_append] at h ⊢
    by_cases hk : pk = k
    · rw [if_pos hk] at h
      exact absurd h (by simp)
    · rw [if_neg hk] at h ⊢
      exact ih h

theorem alookup_aset {α β : Type} [DecidableEq α] (l : List (α × β)) (k k' : α) (v : β) :
    alookup (aset l k v) k' = if k' = k then some v else alookup l k' := by
  unfold aset
  by_cases hk : k' = k
  · subst hk
    have he : alookup (aerase l k') k' = none := by rw [alookup_aerase, if_pos rfl]
    rw [alookup_append_none _ he, if_pos rfl]
    simp [alookup]
  · rw [if_neg hk]
    have he : alookup (aerase l k) k' = alookup l k' := by
      rw [alookup_aerase, if_neg hk]
    cases hv : alookup l k' with
    | none =>
      rw [← he] at hv
      rw [alookup_append_none _ hv]
      simp only [alookup]
      rw [if_neg fun hke => hk hke.symm]
    | some w =>
      rw [← he] at hv
      exact alookup_append_some hv

theorem alookup_mem {α β : Type} [DecidableEq α] {l : List (α × β)} {k : α} {v : β}
    (h : alookup l k = some v) : (k, v) ∈ l := by
  induction l with
  | nil => simp [alookup] at h
  | cons p rest ih =>
    obtain ⟨pk, pv⟩ := p
    simp only [alookup] at h
    by_cases hk : pk = k
    · rw [if_pos hk] at h
      subst hk
      obtain rfl : pv = v := by injection h
      exact List.mem_cons_self _ _
    · rw [if_neg hk] at h
      exact List.mem_cons_of_mem _ (ih h)

theorem mem_aerase {α β : Type} [DecidableEq α] {p : α × β} {l : List (α × β)} {k : α}
    (h : p ∈ aerase l k) : p ∈ l ∧ p.1 ≠ k := by
  induction l with
  | nil => simp [aerase] at h
  | cons q rest ih =>
    obtain ⟨qk, qv⟩ := q
    simp only [aerase] at h
    by_cases hk : qk = k
    · rw [if_pos hk] at h
      exact ⟨List.mem_cons_of_mem _ (ih h).1, (ih h).2⟩
    · rw [if_neg hk] at h
      rcases List.mem_cons.mp h with hh | hh
      · subst hh
        exact ⟨List.mem_cons_self _ _, hk⟩
      · exact ⟨List.mem_cons_of_mem _ (ih hh).1, (ih hh).2⟩

theorem mem_aset {α β : Type} [DecidableEq α] {p : α × β} {l : List (α × β)} {k : α}
    {v : β} (h : p ∈ aset l k v) : (p ∈ l ∧ p.1 ≠ k) ∨ p = (k, v) := by
  unfold aset at h
  rcases List.mem_append.mp h with hh | hh
  · exact Or.inl (mem_aerase hh)
  · simp at hh
    exact Or.inr hh

theorem alookup_split {α β : Type} [DecidableEq α] {l : List (α × β)} {k : α} {v : β}
    (h : alookup l k = some v) : ∃ l₁ l₂, l = l₁ ++ (k, v) :: l₂ := by
  induction l with
  | nil => simp [alookup] at h
  | cons p rest ih =>
    obtain ⟨pk, pv⟩ := p
    simp only [alookup] at h
    by_cases hk : pk = k
    · rw [if_pos hk] at h
      subst hk
      obtain rfl : pv = v := by injection h
      exact ⟨[], rest, rfl⟩
    · rw [if_neg hk] at h
      obtain ⟨l₁, l₂, rfl⟩ := ih h
      exact ⟨(pk, pv) :: l₁, l₂, rfl⟩

theorem heapGet_heapSet (h : List (Nat × Client)) (r r' : Nat) (c : Client) :
    heapGet (heapSet h r c) r' = if r' = r then some c else heapGet h r' := by
  unfold heapGet heapSet
  exact alookup_aset h r r' c

theorem tryEnqueue_of_full {mb : Mailbox} (msg : Message) (h : isFull mb) :
    tryEnqueue mb msg = (false, mb) := by
  unfold tryEnqueue
  rw [if_neg]
  intro hc
  exact absurd hc.2 (by unfold isFull at h; omega)

theorem subsOf_heapSet (h : List (Nat × Client)) (r rr : Nat) (c : Client) :
    subsOf (heapSet h r c) rr = if rr = r then c.Subscriptions else subsOf h rr := by
  unfold subsOf
  rw [heapGet_heapSet]
  by_cases hr : rr = r
  · rw [if_pos hr, if_pos hr]
  · rw [if_neg hr, if_neg hr]

theorem queueOf_heapSet (h : List (Nat × Client)) (r rr : Nat) (c : Client) :
    queueOf (heapSet h r c) rr = if rr = r then c.Send.queue else queueOf h rr := by
  unfold queueOf
  rw [heapGet_heapSet]
  by_cases hr : rr = r
  · rw [if_pos hr, if_pos hr]
  · rw [if_neg hr, if_neg hr]

theorem dispatchStep_clients (st : Manager) (msg : Message) (r : Nat) :
    (dispatchStep st msg r).clients = st.clients := by
  unfold dispatchStep
  cases hc : heapGet st.heap r with
  | none => rfl
  | some c =>
    simp only []
    split <;> rfl

theorem dispatchStep_userClients (st : Manager) (msg : Message) (r : Nat) :
    (dispatchStep st msg r).userClients = st.userClients := by
  unfold dispatchStep
  cases hc : heapGet st.heap r with
  | none => rfl
  | some c =>
    simp only []
    split <;> rfl

theorem dispatchStep_subsOf (st : Manager) (msg : Message) (r rr : Nat) :
    subsOf (dispatchStep st msg r).heap rr = subsOf st.heap rr := by
  unfold dispatchStep
  cases hc : heapGet st.heap r with
  | none => rfl
  | some c =>
    simp only []
    split <;>
      · show subsOf (heapSet st.heap r _) rr = subsOf st.heap rr
        rw [subsOf_heapSet]
        by_cases hr : rr = r
        · rw [if_pos hr]
          subst hr
          unfold subsOf
          rw [hc]
        · rw [if_neg hr]

theorem dispatchStep_heapGet_ne (st : Manager) (msg : Message) (r rr : Nat) (h : rr ≠ r) :
    heapGet (dispatchStep st msg r).heap rr = heapGet st.heap rr := by
  unfold dispatchStep
  cases hc : heapGet st.heap r with
  | none => rfl
  | some c =>
    simp only []
    split <;>
      · show heapGet (heapSet st.heap r _) rr = heapGet st.heap rr
        rw [heapGet_heapSet, if_neg h]

theorem dispatchStep_isSome (st : Manager) (msg : Message) (r rr : Nat) :
    (heapGet (dispatchStep st msg r).heap rr).isSome = (heapGet st.heap rr).isSome := by
  by_cases hr : rr = r
  · subst hr
    unfold dispatchStep
    cases hc : heapGet st.heap rr with
    | none =>
      show (heapGet st.heap rr).isSome = _
      rw [hc]
    | some c =>
      simp only []
      split <;>
        · show (heapGet (heapSet st.heap rr _) rr).isSome = _
          rw [heapGet_heapSet, if_pos rfl]
          rfl
  · rw [dispatchStep_heapGet_ne st msg r rr hr]

theorem dispatchStep_subscribedB (st : Manager) (msg : Message) (r rr : Nat) (d : String) :
    subscribedB (dispatchStep st msg r).heap rr d = subscribedB st.heap rr d := by
  by_cases hr : rr = r
  · subst hr
    unfold dispatchStep
    cases hc : heapGet st.heap rr with
    | none => rfl
    | some c =>
      simp only []
      split <;>
        · show subscribedB (heapSet st.heap rr _) rr d = subscribedB st.heap rr d
          unfold subscribedB
          rw [heapGet_heapSet, if_pos rfl, hc]
  · unfold subscribedB
    rw [dispatchStep_heapGet_ne st msg r rr hr]

theorem sendToUserLoop_attempted (msg : Message) (l : List (String × Nat)) (st : Manager)
    (acc : List Nat) :
    (sendToUserLoop msg l st acc).2 = acc ++ l.map (fun e => e.2) := by
  induction l generalizing st acc with
  | nil => simp [sendToUserLoop]
  | cons e rest ih =>
    simp only [sendToUserLoop, List.map_cons]
    rw [ih]
    simp

theorem sendToUserLoop_clients (msg : Message) (l : List (String × Nat)) (st : Manager)
    (acc : List Nat) :
    (sendToUserLoop msg l st acc).1.clients = st.clients := by
  induction l generalizing st acc with
  | nil => rfl
  | cons e rest ih =>
    simp only [sendToUserLoop]
    rw [ih, dispatchStep_clients]

theorem sendToUserLoop_userClients (msg : Message) (l : List (String × Nat)) (st : Manager)
    (acc : List Nat) :
    (sendToUserLoop msg l st acc).1.userClients = st.userClients := by
  induction l generalizing st acc with
  | nil => rfl
  | cons e rest ih =>
    simp only [sendToUserLoop]
    rw [ih, dispatchStep_userClients]

theorem sendToUserLoop_subsOf (msg : Message) (l : List (String × Nat)) (st : Manager)
    (acc : List Nat) (rr : Nat) :
    subsOf (sendToUserLoop msg l st acc).1.heap rr = subsOf st.heap rr := by
  induction l generalizing st acc with
  | nil => rfl
  | cons e rest ih =>
    simp only [sendToUserLoop]
    rw [ih, dispatchStep_subsOf]

theorem sendToUserLoop_heapGet_notMem (msg : Message) (l : List (String × Nat))
    (st : Manager) (acc : List Nat) (rr : Nat) (h : ∀ e ∈ l, e.2 ≠ rr) :
    heapGet (sendToUserLoop msg l st acc).1.heap rr = heapGet st.heap rr := by
  induction l generalizing st acc with
  | nil => rfl
  | cons e rest ih =>
    simp only [sendToUserLoop]
    rw [ih _ _ fun e' he' => h e' (List.mem_cons_of_mem _ he')]
    exact dispatchStep_heapGet_ne st msg e.2 rr
      fun hrr => h e (List.mem_cons_self _ _) hrr.symm

theorem SendToUser_attempted (m : Manager) (u : Nat) (msg : Message) :
    (SendToUser m u msg).2 = ((alookup m.userClients u).getD []).map (fun e => e.2) := by
  unfold SendToUser
  cases hu : alookup m.userClients u with
  | none => rfl
  | some sub =>
    simp only [Option.getD]
    rw [sendToUserLoop_attempted]
    rfl

theorem SendToUser_clients (m : Manager) (u : Nat) (msg : Message) :
    (SendToUser m u msg).1.clients = m.clients := by
  unfold SendToUser
  cases hu : alookup m.userClients u with
  | none => rfl
  | some sub => exact sendToUserLoop_clients msg sub m []

theorem SendToUser_userClients (m : Manager) (u : Nat) (msg : Message) :
    (SendToUser m u msg).1.userClients = m.userClients := by
  unfold SendToUser
  cases hu : alookup m.userClients u with
  | none => rfl
  | some sub => exact sendToUserLoop_userClients msg sub m []

theorem SendToUser_noop (m : Manager) (u : Nat) (msg : Message)
    (h : alookup m.userClients u = none) : SendToUser m u msg = (m, []) := by
  unfold SendToUser
  rw [h]

theorem subscribedB_eq {h : List (Nat × Client)} {r : Nat} {c : Client} (d : String)
    (hc : heapGet h r = some c) : subscribedB h r d = c.Subscriptions.contains d := by
  unfold subscribedB
  rw [hc]

theorem subscribedB_none {h : List (Nat × Client)} {r : Nat} (d : String)
    (hc : heapGet h r = none) : subscribedB h r d = false := by
  unfold subscribedB
  rw [hc]

theorem sendToDeviceLoop_attempted (d : String) (msg : Message) (l : List (String × Nat))
    (st : Manager) (acc : List Nat) :
    (sendToDeviceLoop d msg l st acc).2 =
      acc ++ (l.filter (fun e => subscribedB st.heap e.2 d)).map (fun e => e.2) := by
  induction l generalizing st acc with
  | nil => simp [sendToDeviceLoop]
  | cons e rest ih =>
    simp only [sendToDeviceLoop]
    cases hc : heapGet st.heap e.2 with
    | none =>
      rw [ih, List.filter_cons_of_neg (by simp [subscribedB_none d hc])]
    | some c =>
      simp only []
      cases hsub : c.Subscriptions.contains d with
      | true =>
        have hs : subscribedB st.heap e.2 d = true := by rw [subscribedB_eq d hc, hsub]
        rw [if_pos rfl, ih]
        have hcong : rest.filter (fun e' => subscribedB (dispatchStep st msg e.2).heap e'.2 d) =
            rest.filter (fun e' => subscribedB st.heap e'.2 d) := by
          apply List.filter_congr
          intro a _
          exact dispatchStep_subscribedB st msg e.2 a.2 d
        rw [hcong, List.filter_cons_of_pos (by simp [hs])]
        simp
      | false =>
        have hs : subscribedB st.heap e.2 d = false := by rw [subscribedB_eq d hc, hsub]
        rw [if_neg Bool.false_ne_true, ih, List.filter_cons_of_neg (by simp [hs])]

theorem sendToDeviceLoop_clients (d : String) (msg : Message) (l : List (String × Nat))
    (st : Manager) (acc : List Nat) :
    (sendToDeviceLoop d msg l st acc).1.clients = st.clients := by
  induction l generalizing st acc with
  | nil => rfl
  | cons e rest ih =>
    simp only [sendToDeviceLoop]
    cases hc : heapGet st.heap e.2 with
    | none => exact ih st acc
    | some c =>
      simp only []
      cases hsub : c.Subscriptions.contains d with
      | true =>
        rw [if_pos rfl, ih, dispatchStep_clients]
      | false =>
        rw [if_neg Bool.false_ne_true]
        exact ih st acc

theorem sendToDeviceLoop_userClients (d : String) (msg : Message) (l : List (String × Nat))
    (st : Manager) (acc : List Nat) :
    (sendToDeviceLoop d msg l st acc).1.userClients = st.userClients := by
  induction l generalizing st acc with
  | nil => rfl
  | cons e rest ih =>
    simp only [sendToDeviceLoop]
    cases hc : heapGet st.heap e.2 with
    | none => exact ih st acc
    | some c =>
      simp only []
      cases hsub : c.Subscriptions.contains d with
      | true =>
        rw [if_pos rfl, ih, dispatchStep_userClients]
      | false =>
        rw [if_neg Bool.false_ne_true]
        exact ih st acc

theorem sendToDeviceLoop_noop (d : String) (msg : Message) (l : List (String × Nat))
    (st : Manager) (acc : List Nat)
    (h : ∀ e ∈ l, subscribedB st.heap e.2 d = false) :
    sendToDeviceLoop d msg l st acc = (st, acc) := by
  induction l with
  | nil => rfl
  | cons e rest ih =>
    simp only [sendToDeviceLoop]
    cases hc : heapGet st.heap e.2 with
    | none => exact ih fun e' he' => h e' (List.mem_cons_of_mem _ he')
    | some c =>
      have hsub : c.Subscriptions.contains d = false := by
        rw [← subscribedB_eq d hc]
        exact h e (List.mem_cons_self _ _)
      simp only []
      rw [hsub, if_neg Bool.false_ne_true]
      exact ih fun e' he' => h e' (List.mem_cons_of_mem _ he')

theorem sendToDeviceLoop_heapGet_unsub (d : String) (msg : Message)
    (l : List (String × Nat)) (st : Manager) (acc : List Nat) (rr : Nat)
    (h : subscribedB st.heap rr d = false) :
    heapGet (sendToDeviceLoop d msg l st acc).1.heap rr = heapGet st.heap rr := by
  induction l generalizing st acc with
  | nil => rfl
  | cons e rest ih =>
    simp only [sendToDeviceLoop]
    cases hc : heapGet st.heap e.2 with
    | none => exact ih st acc h
    | some c =>
      simp only []
      cases hsub : c.Subscriptions.contains d with
      | true =>
        rw [if_pos rfl]
        have hne : e.2 ≠ rr := by
          intro he
          rw [he] at hc
          rw [subscribedB_eq d hc, hsub] at h
          exact absurd h (by simp)
        have h2 : subscribedB (dispatchStep st msg e.2).heap rr d = false := by
          rw [dispatchStep_subscribedB]
          exact h
        rw [ih (dispatchStep st msg e.2) (acc ++ [e.2]) h2]
        exact dispatchStep_heapGet_ne st msg e.2 rr fun hrr => hne hrr.symm
      | false =>
        rw [if_neg Bool.false_ne_true]
        exact ih st acc h

theorem SendToDevice_attempted (m : Manager) (d : String) (msg : Message) :
    (SendToDevice m d msg).2 =
      (m.clients.filter (fun e => subscribedB m.heap e.2 d)).map (fun e => e.2) := by
  unfold SendToDevice
  rw [sendToDeviceLoop_attempted]
  rfl

theorem SendToDevice_clients (m : Manager) (d : String) (msg : Message) :
    (SendToDevice m d msg).1.clients = m.clients := by
  unfold SendToDevice
  exact sendToDeviceLoop_clients d msg m.clients m []

theorem SendToDevice_userClients (m : Manager) (d : String) (msg : Message) :
    (SendToDevice m d msg).1.userClients = m.userClients := by
  unfold SendToDevice
  exact sendToDeviceLoop_userClients d msg m.clients m []

theorem SendToDevice_noop (m : Manager) (d : String) (msg : Message)
    (h : ∀ e ∈ m.clients, subscribedB m.heap e.2 d = false) :
    SendToDevice m d msg = (m, []) := by
  unfold SendToDevice
  exact sendToDeviceLoop_noop d msg m.clients m [] h

theorem broadcastStep_userClients (st : Manager) (msg : Message) (e : String × Nat) :
    (broadcastStep st msg e).userClients = st.userClients := by
  unfold broadcastStep
  cases hc : heapGet st.heap e.2 with
  | none => rfl
  | some c =>
    simp only []
    split <;> rfl

theorem broadcastStep_subsOf (st : Manager) (msg : Message) (e : String × Nat) (rr : Nat) :
    subsOf (broadcastStep st msg e).heap rr = subsOf st.heap rr := by
  unfold broadcastStep
  cases hc : heapGet st.heap e.2 with
  | none => rfl
  | some c =>
    simp only []
    split <;>
      · show subsOf (heapSet st.heap e.2 _) rr = subsOf st.heap rr
        rw [subsOf_heapSet]
        by_cases hr : rr = e.2
        · rw [if_pos hr]
          subst hr
          unfold subsOf
          rw [hc]
        · rw [if_neg hr]

theorem broadcastStep_absent (st : Manager) (msg : Message) (e : String × Nat) (id : String)
    (h : alookup st.clients id = none) :
    alookup (broadcastStep st msg e).clients id = none := by
  unfold broadcastStep
  cases hc : heapGet st.heap e.2 with
  | none => exact h
  | some c =>
    simp only []
    split
    · exact h
    · show alookup (aerase st.clients c.ID) id = none
      rw [alookup_aerase]
      by_cases hid : id = c.ID
      · rw [if_pos hid]
      · rw [if_neg hid]
        exact h

theorem broadcastStep_inv (st : Manager) (msg : Message) (e : String × Nat) (id : String)
    (r : Nat) (h : BCInv st id r) : BCInv (broadcastStep st msg e) id r := by
  rcases h with h | ⟨h1, c', h2, h3, h4⟩
  · exact Or.inl (broadcastStep_absent st msg e id h)
  · unfold broadcastStep
    cases hc : heapGet st.heap e.2 with
    | none => exact Or.inr ⟨h1, c', h2, h3, h4⟩
    | some c =>
      simp only []
      cases hres : (tryEnqueue c.Send msg).1 with
      | true =>
        rw [if_pos rfl]
        by_cases he : e.2 = r
        · subst he
          rw [hc] at h2
          obtain rfl : c = c' := by injection h2
          rw [tryEnqueue_of_full msg h4] at hres
          exact absurd hres (by simp)
        · refine Or.inr ⟨h1, c', ?_, h3, h4⟩
          show heapGet (heapSet st.heap e.2 _) r = some c'
          rw [heapGet_heapSet, if_neg fun hr => he hr.symm]
          exact h2
      | false =>
        rw [if_neg Bool.false_ne_true]
        by_cases hid : id = c.ID
        · refine Or.inl ?_
          show alookup (aerase st.clients c.ID) id = none
          rw [alookup_aerase, if_pos hid]
        · by_cases he : e.2 = r
          · subst he
            rw [hc] at h2
            obtain rfl : c = c' := by injection h2
            exact absurd h3.symm hid
          · refine Or.inr ⟨?_, c', ?_, h3, h4⟩
            · show alookup (aerase st.clients c.ID) id = some r
              rw [alookup_aerase, if_neg hid]
              exact h1
            · show heapGet (heapSet st.heap e.2 _) r = some c'
              rw [heapGet_heapSet, if_neg fun hr => he hr.symm]
              exact h2

theorem broadcastStep_kill (st : Manager) (msg : Message) (id : String) (r : Nat)
    (h : BCInv st id r) : alookup (broadcastStep st msg (id, r)).clients id = none := by
  rcases h with h | ⟨h1, c', h2, h3, h4⟩
  · exact broadcastStep_absent st msg (id, r) id h
  · unfold broadcastStep
    simp only []
    rw [h2]
    simp only []
    rw [tryEnqueue_of_full msg h4]
    rw [if_neg (by simp)]
    show alookup (aerase st.clients c'.ID) id = none
    rw [alookup_aerase, if_pos h3.symm]

theorem broadcastLoop_userClients (msg : Message) (l : List (String × Nat)) (st : Manager) :
    (broadcastLoop msg l st).userClients = st.userClients := by
  induction l generalizing st with
  | nil => rfl
  | cons e rest ih =>
    simp only [broadcastLoop]
    rw [ih, broadcastStep_userClients]

theorem broadcastLoop_subsOf (msg : Message) (l : List (String × Nat)) (st : Manager)
    (rr : Nat) : subsOf (broadcastLoop msg l st).heap rr = subsOf st.heap rr := by
  induction l generalizing st with
  | nil => rfl
  | cons e rest ih =>
    simp only [broadcastLoop]
    rw [ih, broadcastStep_subsOf]

theorem broadcastLoop_absent (msg : Message) (l : List (String × Nat)) (st : Manager)
    (id : String) (h : alookup st.clients id = none) :
    alookup (broadcastLoop msg l st).clients id = none := by
  induction l generalizing st with
  | nil => exact h
  | cons e rest ih =>
    simp only [broadcastLoop]
    exact ih _ (broadcastStep_absent st msg e id h)

theorem broadcastLoop_inv (msg : Message) (l : List (String × Nat)) (st : Manager)
    (id : String) (r : Nat) (h : BCInv st id r) : BCInv (broadcastLoop msg l st) id r := by
  induction l generalizing st with
  | nil => exact h
  | cons e rest ih =>
    simp only [broadcastLoop]
    exact ih _ (broadcastStep_inv st msg e id r h)

theorem broadcastLoop_append (msg : Message) (l₁ l₂ : List (String × Nat)) (st : Manager) :
    broadcastLoop msg (l₁ ++ l₂) st = broadcastLoop msg l₂ (broadcastLoop msg l₁ st) := by
  induction l₁ generalizing st with
  | nil => rfl
  | cons e rest ih =>
    simp only [broadcastLoop, List.cons_append]
    exact ih _

theorem broadcastMessage_kill (m : Manager) (msg : Message) (id : String) (r : Nat)
    (c : Client) (h1 : alookup m.clients id = some r) (h2 : heapGet m.heap r = some c)
    (h3 : c.ID = id) (h4 : isFull c.Send) :
    alookup (broadcastMessage m msg).clients id = none := by
  obtain ⟨l₁, l₂, hsplit⟩ := alookup_split h1
  unfold broadcastMessage
  rw [hsplit, broadcastLoop_append]
  simp only [broadcastLoop]
  have hinv : BCInv (broadcastLoop msg l₁ m) id r :=
    broadcastLoop_inv msg l₁ m id r (Or.inr ⟨h1, c, h2, h3, h4⟩)
  exact broadcastLoop_absent msg l₂ _ id (broadcastStep_kill _ msg id r hinv)

theorem registerClient_eq (m : Manager) (r : Nat) (now : Nat) (c : Client)
    (hc : heapGet m.heap r = some c) :
    registerClient m r now =
      { heap := heapSet m.heap r
          (if (tryEnqueue c.Send (welcomeMsg now)).1 then
            { c with Send := (tryEnqueue c.Send (welcomeMsg now)).2 }
          else { c with Send := closeMailbox c.Send })
        clients := aset m.clients c.ID r
        userClients := aset m.userClients c.UserID
          (aset ((alookup m.userClients c.UserID).getD []) c.ID r) } := by
  unfold registerClient
  rw [hc]

theorem registerClient_clients_lookup (m : Manager) (r : Nat) (now : Nat) (c : Client)
    (hc : heapGet m.heap r = some c) :
    alookup (registerClient m r now).clients c.ID = some r := by
  rw [registerClient_eq m r now c hc]
  simp only []
  rw [alookup_aset, if_pos rfl]

theorem registerClient_userClients_lookup (m : Manager) (r : Nat) (now : Nat) (c : Client)
    (hc : heapGet m.heap r = some c) :
    ∃ sub, alookup (registerClient m r now).userClients c.UserID = some sub ∧
      alookup sub c.ID = some r := by
  rw [registerClient_eq m r now c hc]
  simp only []
  refine ⟨aset ((alookup m.userClients c.UserID).getD []) c.ID r, ?_, ?_⟩
  · rw [alookup_aset, if_pos rfl]
  · rw [alookup_aset, if_pos rfl]

theorem tryEnqueue_success_queue {mb : Mailbox} {msg : Message}
    (h : (tryEnqueue mb msg).1 = true) : (tryEnqueue mb msg).2.queue = mb.queue ++ [msg] := by
  unfold tryEnqueue at h ⊢
  split at h
  · split
    · rfl
    · simp_all
  · simp at h

theorem tryEnqueue_open_room {mb : Mailbox} (msg : Message) (hcl : mb.closed = false)
    (hroom : mb.queue.length < mb.cap) : (tryEnqueue mb msg).1 = true := by
  unfold tryEnqueue
  rw [if_pos ⟨hcl, hroom⟩]

/-- If an entry for the unregistering client's id sits in some user group
of a consistent, well-formed registry, that group is the client's own. -/
theorem group_entry_user (m : Manager) (u : Nat) (sub' : List (String × Nat)) (x r : Nat)
    (c : Client) (hcons : Consistent m) (hwf : IndexWF m)
    (hc : heapGet m.heap r = some c) (hcl : alookup m.clients c.ID = some r)
    (hsub : alookup m.userClients u = some sub') (hx : alookup sub' c.ID = some x) :
    u = c.UserID := by
  have hmemq : (u, sub') ∈ m.userClients := alookup_mem hsub
  have hmemp : (c.ID, x) ∈ sub' := alookup_mem hx
  have h2 : alookup m.clients c.ID = some x := hcons.2 _ hmemq _ hmemp
  rw [hcl] at h2
  obtain rfl : r = x := by injection h2
  have h3 : (userOf m.heap r).getD u = u := hwf _ hmemq _ hmemp
  unfold userOf at h3
  rw [hc] at h3
  exact h3.symm

theorem unregisterClient_removes_both (m : Manager) (r : Nat) (c : Client)
    (hc : heapGet m.heap r = some c) (hcons : Consistent m) (hwf : IndexWF m)
    (hid : alookup m.clients c.ID = none ∨ alookup m.clients c.ID = some r) :
    alookup (unregisterClient m r).clients c.ID = none ∧
      ∀ u sub', alookup (unregisterClient m r).userClients u = some sub' →
        alookup sub' c.ID = none := by
  unfold unregisterClient
  rw [hc]
  simp only []
  rcases hid with hnone | hsome
  · rw [hnone]
    rw [if_neg (by simp)]
    refine ⟨hnone, ?_⟩
    intro u sub' hsub'
    cases hx : alookup sub' c.ID with
    | none => rfl
    | some x =>
      have hmemq : (u, sub') ∈ m.userClients := alookup_mem hsub'
      have hmemp : (c.ID, x) ∈ sub' := alookup_mem hx
      have h2 : alookup m.clients c.ID = some x := hcons.2 _ hmemq _ hmemp
      rw [hnone] at h2
      exact absurd h2 (by simp)
  · rw [hsome]
    rw [if_pos (by rfl)]
    constructor
    · show alookup (aerase m.clients c.ID) c.ID = none
      rw [alookup_aerase, if_pos rfl]
    · intro u sub' hsub'
      cases hx : alookup sub' c.ID with
      | none => rfl
      | some x =>
        exfalso
        cases houter : alookup m.userClients c.UserID with
        | none =>
          rw [houter] at hsub'
          simp only [] at hsub'
          have hu : u = c.UserID :=
            group_entry_user m u sub' x r c hcons hwf hc hsome hsub' hx
          rw [hu, houter] at hsub'
          exact absurd hsub' (by simp)
        | some sub =>
          rw [houter] at hsub'
          simp only [] at hsub'
          by_cases hemp : (aerase sub c.ID).isEmpty
          · rw [if_pos hemp] at hsub'
            rw [alookup_aerase] at hsub'
            by_cases hu : u = c.UserID
            · rw [if_pos hu] at hsub'
              exact absurd hsub' (by simp)
            · rw [if_neg hu] at hsub'
              exact hu (group_entry_user m u sub' x r c hcons hwf hc hsome hsub' hx)
          · rw [if_neg hemp] at hsub'
            rw [alookup_aset] at hsub'
            by_cases hu : u = c.UserID
            · rw [if_pos hu] at hsub'
              obtain rfl : aerase sub c.ID = sub' := by injection hsub'
              rw [alookup_aerase, if_pos rfl] at hx
              exact absurd hx (by simp)
            · rw [if_neg hu] at hsub'
              exact hu (group_entry_user m u sub' x r c hcons hwf hc hsome hsub' hx)

theorem clientEnqueueOwn_clients (m : Manager) (r : Nat) (msg : Message) :
    (clientEnqueueOwn m r msg).clients = m.clients := by
  unfold clientEnqueueOwn
  cases hc : heapGet m.heap r with
  | none => rfl
  | some c =>
    simp only []
    split <;> rfl

theorem clientEnqueueOwn_userClients (m : Manager) (r : Nat) (msg : Message) :
    (clientEnqueueOwn m r msg).userClients = m.userClients := by
  unfold clientEnqueueOwn
  cases hc : heapGet m.heap r with
  | none => rfl
  | some c =>
    simp only []
    split <;> rfl

theorem clientEnqueueOwn_queueOf (m : Manager) (r : Nat) (msg : Message) (rr : Nat) :
    ∃ t, queueOf (clientEnqueueOwn m r msg).heap rr = queueOf m.heap rr ++ t ∧
      (t = [] ∨ t = [msg]) := by
  unfold clientEnqueueOwn
  cases hc : heapGet m.heap r with
  | none => exact ⟨[], by simp, Or.inl rfl⟩
  | some c =>
    simp only []
    cases hres : (tryEnqueue c.Send msg).1 with
    | false =>
      rw [if_neg Bool.false_ne_true]
      exact ⟨[], by simp, Or.inl rfl⟩
    | true =>
      rw [if_pos rfl]
      by_cases hr : rr = r
      · subst hr
        refine ⟨[msg], ?_, Or.inr rfl⟩
        rw [queueOf_heapSet, if_pos rfl]
        show (tryEnqueue c.Send msg).2.queue = queueOf m.heap rr ++ [msg]
        rw [tryEnqueue_success_queue hres]
        unfold queueOf
        rw [hc]
      · refine ⟨[], ?_, Or.inl rfl⟩
        rw [queueOf_heapSet, if_neg hr]
        simp

theorem clientEnqueueOwn_subsOf (m : Manager) (r : Nat) (msg : Message) (rr : Nat) :
    subsOf (clientEnqueueOwn m r msg).heap rr = subsOf m.heap rr := by
  unfold clientEnqueueOwn
  cases hc : heapGet m.heap r with
  | none => rfl
  | some c =>
    simp only []
    cases hres : (tryEnqueue c.Send msg).1 with
    | false => rw [if_neg Bool.false_ne_true]
    | true =>
      rw [if_pos rfl]
      show subsOf (heapSet m.heap r _) rr = subsOf m.heap rr
      rw [subsOf_heapSet]
      by_cases hr : rr = r
      · rw [if_pos hr]
        subst hr
        unfold subsOf
        rw [hc]
      · rw [if_neg hr]

theorem handleSubscribe_clients (m : Manager) (r : Nat) (now : Nat) (msg : Message) :
    (handleSubscribe m r now msg).clients = m.clients := by
  unfold handleSubscribe
  repeat' split
  all_goals first
  | rfl
  | rw [clientEnqueueOwn_clients]

theorem handleSubscribe_userClients (m : Manager) (r : Nat) (now : Nat) (msg : Message) :
    (handleSubscribe m r now msg).userClients = m.userClients := by
  unfold handleSubscribe
  repeat' split
  all_goals first
  | rfl
  | rw [clientEnqueueOwn_userClients]

theorem handleUnsubscribe_clients (m : Manager) (r : Nat) (msg : Message) :
    (handleUnsubscribe m r msg).clients = m.clients := by
  unfold handleUnsubscribe
  repeat' split
  all_goals rfl

theorem handleUnsubscribe_userClients (m : Manager) (r : Nat) (msg : Message) :
    (handleUnsubscribe m r msg).userClients = m.userClients := by
  unfold handleUnsubscribe
  repeat' split
  all_goals rfl

theorem handleMessage_clients (m : Manager) (r : Nat) (now : Nat) (msg : Message) :
    (handleMessage m r now msg).clients = m.clients := by
  unfold handleMessage
  split_ifs
  · exact handleSubscribe_clients m r now msg
  · exact handleUnsubscribe_clients m r msg
  · exact clientEnqueueOwn_clients m r (heartbeatResp now)
  · rfl

theorem handleMessage_userClients (m : Manager) (r : Nat) (now : Nat) (msg : Message) :
    (handleMessage m r now msg).userClients = m.userClients := by
  unfold handleMessage
  split_ifs
  · exact handleSubscribe_userClients m r now msg
  · exact handleUnsubscribe_userClients m r msg
  · exact clientEnqueueOwn_userClients m r (heartbeatResp now)
  · rfl

theorem queueOf_heapSet_keep (m : Manager) (r rr : Nat) (c c2 : Client)
    (hc : heapGet m.heap r = some c) (hq : c2.Send = c.Send) :
    queueOf (heapSet m.heap r c2) rr = queueOf m.heap rr := by
  rw [queueOf_heapSet]
  by_cases hr : rr = r
  · rw [if_pos hr]
    subst hr
    unfold queueOf
    rw [hc, hq]
  · rw [if_neg hr]

theorem clientEnqueueOwn_subsSet_queueOf (m : Manager) (r rr : Nat) (c : Client)
    (subs2 : List String) (msg2 : Message) (hc : heapGet m.heap r = some c) :
    ∃ t, queueOf (clientEnqueueOwn
        { m with heap := heapSet m.heap r { c with Subscriptions := subs2 } } r msg2).heap rr =
      queueOf m.heap rr ++ t ∧ (t = [] ∨ t = [msg2]) := by
  obtain ⟨t, ht, hts⟩ := clientEnqueueOwn_queueOf
    { m with heap := heapSet m.heap r { c with Subscriptions := subs2 } } r msg2 rr
  refine ⟨t, ?_, hts⟩
  rw [ht]
  show queueOf (heapSet m.heap r { c with Subscriptions := subs2 }) rr ++ t =
    queueOf m.heap rr ++ t
  rw [queueOf_heapSet_keep m r rr c { c with Subscriptions := subs2 } hc rfl]

theorem handleSubscribe_queueOf (m : Manager) (r : Nat) (now : Nat) (msg : Message)
    (rr : Nat) :
    ∃ t, queueOf (handleSubscribe m r now msg).heap rr = queueOf m.heap rr ++ t ∧
      ∀ x ∈ t, x.type = TypeNotification := by
  unfold handleSubscribe
  cases msg.data with
  | vobj fields =>
    simp only []
    cases hl : alookup fields deviceIdKey with
    | none => exact ⟨[], by simp, by simp⟩
    | some dv =>
      cases dv with
      | vstr d =>
        simp only []
        cases hc : heapGet m.heap r with
        | none => exact ⟨[], by simp, by simp⟩
        | some c =>
          simp only []
          obtain ⟨t, ht, hts⟩ := clientEnqueueOwn_subsSet_queueOf m r rr c
            (if c.Subscriptions.contains d then c.Subscriptions else c.Subscriptions ++ [d])
            (subscribeAck d now) hc
          refine ⟨t, ht, ?_⟩
          intro x hx
          rcases hts with rfl | rfl
          · exact absurd hx (List.not_mem_nil x)
          · have hxa : x = subscribeAck d now := by simpa using hx
            subst hxa
            rfl
      | vnull => exact ⟨[], by simp, by simp⟩
      | vnum n => exact ⟨[], by simp, by simp⟩
      | vbool b => exact ⟨[], by simp, by simp⟩
      | vobj f2 => exact ⟨[], by simp, by simp⟩
  | vnull => exact ⟨[], by simp, by simp⟩
  | vstr s => exact ⟨[], by simp, by simp⟩
  | vnum n => exact ⟨[], by simp, by simp⟩
  | vbool b => exact ⟨[], by simp, by simp⟩

theorem handleUnsubscribe_queueOf (m : Manager) (r : Nat) (msg : Message) (rr : Nat) :
    queueOf (handleUnsubscribe m r msg).heap rr = queueOf m.heap rr := by
  unfold handleUnsubscribe
  cases msg.data with
  | vobj fields =>
    simp only []
    cases hl : alookup fields deviceIdKey with
    | none => rfl
    | some dv =>
      cases dv with
      | vstr d =>
        simp only []
        cases hc : heapGet m.heap r with
        | none => rfl
        | some c =>
          simp only []
          exact queueOf_heapSet_keep m r rr c _ hc rfl
      | vnull => rfl
      | vnum n => rfl
      | vbool b => rfl
      | vobj f2 => rfl
  | vnull => rfl
  | vstr s => rfl
  | vnum n => rfl
  | vbool b => rfl

theorem handleMessage_queueOf (m : Manager) (r : Nat) (now : Nat) (msg : Message)
    (rr : Nat) :
    ∃ t, queueOf (handleMessage m r now msg).heap rr = queueOf m.heap rr ++ t ∧
      ∀ x ∈ t, x.type = TypeNotification ∨ x.type = TypeHeartbeat := by
  unfold handleMessage
  split_ifs
  · obtain ⟨t, ht, hts⟩ := handleSubscribe_queueOf m r now msg rr
    exact ⟨t, ht, fun x hx => Or.inl (hts x hx)⟩
  · exact ⟨[], by simp [handleUnsubscribe_queueOf], by simp⟩
  · obtain ⟨t, ht, hts⟩ := clientEnqueueOwn_queueOf m r (heartbeatResp now) rr
    refine ⟨t, ht, ?_⟩
    intro x hx
    rcases hts with rfl | rfl
    · exact absurd hx (List.not_mem_nil x)
    · have hxa : x = heartbeatResp now := by simpa using hx
      subst hxa
      exact Or.inr rfl
  · exact ⟨[], by simp, by simp⟩

theorem contains_filter_self (l : List String) (d : String) :
    (l.filter (fun s => !(s == d))).contains d = false := by
  induction l with
  | nil => rfl
  | cons a l ih =>
    by_cases had : a = d
    · subst had
      rw [List.filter_cons_of_neg (by simp)]
      exact ih
    · rw [List.filter_cons_of_pos (by simp [had])]
      simp only [List.contains_cons]
      rw [ih]
      simp [had]
      intro h
      exact had h.symm

theorem subscribedB_eq_subsOf (h : List (Nat × Client)) (r : Nat) (d : String) :
    subscribedB h r d = (subsOf h r).contains d := by
  unfold subscribedB subsOf
  cases heapGet h r with
  | none => rfl
  | some c => rfl

theorem handleUnsubscribe_clears (m : Manager) (r : Nat) (d : String) :
    (subsOf (handleUnsubscribe m r (unsubscribeMsg d)).heap r).contains d = false := by
  unfold handleUnsubscribe unsubscribeMsg
  simp only []
  have hal : alookup [(deviceIdKey, DataVal.vstr d)] deviceIdKey = some (DataVal.vstr d) := by
    simp [alookup]
  rw [hal]
  simp only []
  cases hc : heapGet m.heap r with
  | none =>
    unfold subsOf
    rw [hc]
    rfl
  | some c =>
    simp only []
    unfold subsOf
    rw [heapGet_heapSet, if_pos rfl]
    exact contains_filter_self c.Subscriptions d

theorem handleMessage_unsub_eq (m : Manager) (r : Nat) (now : Nat) (d : String) :
    handleMessage m r now (unsubscribeMsg d) = handleUnsubscribe m r (unsubscribeMsg d) := by
  have hn : ¬((unsubscribeMsg d).type = TypeSubscribe) := by
    simp [unsubscribeMsg, TypeUnsubscribe, TypeSubscribe]
  have hp : (unsubscribeMsg d).type = TypeUnsubscribe := rfl
  unfold handleMessage
  rw [if_neg hn, if_pos hp]

theorem SendToDevice_skips_unsub (m : Manager) (r : Nat) (d : String) (msg : Message)
    (h : subscribedB m.heap r d = false) :
    r ∉ (SendToDevice m d msg).2 ∧
      queueOf (SendToDevice m d msg).1.heap r = queueOf m.heap r := by
  constructor
  · rw [SendToDevice_attempted]
    intro hmem
    obtain ⟨e, hel, he2⟩ := List.mem_map.mp hmem
    have hef := List.mem_filter.mp hel
    rw [he2] at hef
    rw [h] at hef
    exact absurd hef.2 (by simp)
  · unfold SendToDevice queueOf
    rw [sendToDeviceLoop_heapGet_unsub d msg m.clients m [] r h]

theorem SendToUser_skips_anonymous (m : Manager) (u : Nat) (msg : Message) (r : Nat)
    (c : Client) (hwf : IndexWF m) (hc : heapGet m.heap r = some c)
    (hanon : c.UserID = 0) (hu : u ≠ 0) :
    r ∉ (SendToUser m u msg).2 ∧
      heapGet (SendToUser m u msg).1.heap r = heapGet m.heap r := by
  cases hsub : alookup m.userClients u with
  | none =>
    rw [SendToUser_noop m u msg hsub]
    exact ⟨List.not_mem_nil r, rfl⟩
  | some sub =>
    have hr : ∀ e ∈ sub, e.2 ≠ r := by
      intro e he heq
      have hmemq : (u, sub) ∈ m.userClients := alookup_mem hsub
      have h3 : (userOf m.heap e.2).getD u = u := hwf _ hmemq _ he
      rw [heq] at h3
      unfold userOf at h3
      rw [hc] at h3
      have h4 : c.UserID = u := h3
      rw [hanon] at h4
      exact hu h4.symm
    constructor
    · rw [SendToUser_attempted, hsub]
      intro hmem
      simp only [Option.getD_some] at hmem
      obtain ⟨e, hel, he2⟩ := List.mem_map.mp hmem
      exact hr e hel he2
    · unfold SendToUser
      rw [hsub]
      exact sendToUserLoop_heapGet_notMem msg sub m [] r hr

set_option maxRecDepth 8192 in
/-- C1 counterexample: a session with a saturated mailbox hit by a
broadcast dispatch is NOT removed from every shared index: after
broadcastMessage on mFull the session id is gone from the primary map,
yet its identity-index entry under user 5 and its topic subscription to
d1 both remain, and its mailbox has been closed. -/
theorem ws_C1_counterexample :
    alookup (broadcastMessage mFull msgA).clients idA = none ∧
    alookup (broadcastMessage mFull msgA).userClients 5 = some [(idA, 1)] ∧
    subsOf (broadcastMessage mFull msgA).heap 1 = [devD1] ∧
    closedOf (broadcastMessage mFull msgA).heap 1 = true := by
  decide

/-- C1 amended: on a saturated mailbox, broadcastMessage closes the
mailbox and removes the session from the primary map only — the identity
index and every subscription set are left untouched; SendToUser and
SendToDevice close the mailbox and remove the session from no index at
all. -/
theorem ws_C1_amended (m : Manager) (msg : Message) (u : Nat) (d : String) (id : String)
    (r : Nat) (c : Client) (h1 : alookup m.clients id = some r)
    (h2 : heapGet m.heap r = some c) (h3 : c.ID = id) (h4 : isFull c.Send) :
    alookup (broadcastMessage m msg).clients id = none ∧
    (broadcastMessage m msg).userClients = m.userClients ∧
    (∀ rr, subsOf (broadcastMessage m msg).heap rr = subsOf m.heap rr) ∧
    (SendToUser m u msg).1.clients = m.clients ∧
    (SendToUser m u msg).1.userClients = m.userClients ∧
    (SendToDevice m d msg).1.clients = m.clients ∧
    (SendToDevice m d msg).1.userClients = m.userClients := by
  refine ⟨broadcastMessage_kill m msg id r c h1 h2 h3 h4, ?_, ?_, ?_, ?_, ?_, ?_⟩
  · exact broadcastLoop_userClients msg m.clients m
  · exact fun rr => broadcastLoop_subsOf msg m.clients m rr
  · exact SendToUser_clients m u msg
  · exact SendToUser_userClients m u msg
  · exact SendToDevice_clients m d msg
  · exact SendToDevice_userClients m d msg

set_option maxRecDepth 8192 in
/-- Witness for C1 amended at the concrete saturated state mFull. -/
theorem ws_C1_witness :
    isFull clientFullA.Send ∧
    alookup (broadcastMessage mFull msgA).clients idA = none ∧
    (SendToUser mFull 5 msgA).1.clients = mFull.clients := by
  have hfull : isFull clientFullA.Send := by
    unfold isFull clientFullA fullBox
    simp
  have h := ws_C1_amended mFull msgA 5 devD1 idA 1 clientFullA rfl rfl rfl hfull
  exact ⟨hfull, h.1, h.2.2.2.1⟩

set_option maxRecDepth 8192 in
/-- C2 evaluation at the failing input: with the saturated session of
mFull registered in both maps, SendToUser closes its mailbox once without
unregistering it, and a subsequent unregisterClient (triggered e.g. by a
read error) still finds the id in the primary map and closes the same
channel a second time — in Go, close of a closed channel panics. -/
theorem ws_C2_double_close :
    closeCountOf (SendToUser mFull 5 msgA).1.heap 1 = 1 ∧
    closeCountOf (unregisterClient (SendToUser mFull 5 msgA).1 1).heap 1 = 2 := by
  decide

/-- C3 counterexample: a frame that does not parse (ReadJSON error) is
fatal, contrary to the claim — after one readPump step on parseFailure
the session is gone from the primary map and the loop stops. -/
theorem ws_C3_counterexample :
    alookup mFresh.clients idA = some 1 ∧
    alookup (readPumpStep mFresh 1 0 ReadResult.parseFailure).1.clients idA = none ∧
    (readPumpStep mFresh 1 0 ReadResult.parseFailure).2 = false := by
  decide

/-- C3 amended: a frame that decodes into a Message is non-fatal — the
session stays in both maps and the read loop continues — but no error
reply is ever produced: the only messages a handler may enqueue are
notification acknowledgements and heartbeat responses; an ill-shaped or
unknown frame is silently ignored.  A frame that fails to decode is
indistinguishable from a transport error and tears the session down. -/
theorem ws_C3_amended (m : Manager) (r : Nat) (now : Nat) (msg : Message) :
    (handleMessage m r now msg).clients = m.clients ∧
    (handleMessage m r now msg).userClients = m.userClients ∧
    (readPumpStep m r now (ReadResult.frame msg)).1 = handleMessage m r now msg ∧
    (readPumpStep m r now (ReadResult.frame msg)).2 = true ∧
    readPumpStep m r now ReadResult.parseFailure =
      readPumpStep m r now ReadResult.transportError ∧
    (∀ rr, ∃ t, queueOf (handleMessage m r now msg).heap rr = queueOf m.heap rr ++ t ∧
      ∀ x ∈ t, x.type = TypeNotification ∨ x.type = TypeHeartbeat) := by
  refine ⟨handleMessage_clients m r now msg, handleMessage_userClients m r now msg,
    rfl, rfl, rfl, ?_⟩
  exact fun rr => handleMessage_queueOf m r now msg rr

/-- Witness for C3 amended at a concrete well-shaped subscribe frame. -/
theorem ws_C3_witness :
    (handleMessage mFresh 1 0 (subscribeMsg devD2)).clients = mFresh.clients ∧
    (readPumpStep mFresh 1 0 (ReadResult.frame (subscribeMsg devD2))).2 = true := by
  have h := ws_C3_amended mFresh 1 0 (subscribeMsg devD2)
  exact ⟨h.1, h.2.2.2.1⟩

/-- C4 counterexample: an anonymous session (identity 0, i.e. no
identity) is registered into the secondary identity index as well, so a
session id can sit in the identity index while the session has no
identity, contrary to the claimed iff. -/
theorem ws_C4_counterexample :
    clientAnon.UserID = 0 ∧
    alookup (registerClient mAnonPre 7 0).clients idB = some 7 ∧
    alookup (registerClient mAnonPre 7 0).userClients 0 = some [(idB, 7)] := by
  decide

/-- C4 amended: registerClient inserts the session into the primary map
and into the identity index together (anonymous sessions included, under
identity 0), and unregisterClient removes it from both maps together
whenever the registry is consistent and well formed; no index keeps an
entry for the removed id. -/
theorem ws_C4_amended (m : Manager) (r : Nat) (c : Client) (now : Nat)
    (hc : heapGet m.heap r = some c) :
    (alookup (registerClient m r now).clients c.ID = some r ∧
      ∃ sub, alookup (registerClient m r now).userClients c.UserID = some sub ∧
        alookup sub c.ID = some r) ∧
    (Consistent m → IndexWF m →
      (alookup m.clients c.ID = none ∨ alookup m.clients c.ID = some r) →
      alookup (unregisterClient m r).clients c.ID = none ∧
      ∀ u sub', alookup (unregisterClient m r).userClients u = some sub' →
        alookup sub' c.ID = none) := by
  constructor
  · exact ⟨registerClient_clients_lookup m r now c hc,
      registerClient_userClients_lookup m r now c hc⟩
  · intro hcons hwf hid
    exact unregisterClient_removes_both m r c hc hcons hwf hid

/-- Witness for C4 amended at the concrete one-client state mFresh. -/
theorem ws_C4_witness :
    Consistent mFresh ∧ IndexWF mFresh ∧
    alookup (unregisterClient mFresh 1).clients idA = none ∧
    alookup (registerClient mFresh 1 0).clients idA = some 1 := by
  have hcons : Consistent mFresh := by
    constructor
    · intro p hp
      refine ⟨(5, [(idA, 1)]), by decide, ?_⟩
      have : p = (idA, 1) := by simpa [mFresh] using hp
      subst this
      decide
    · intro q hq p hp
      have hq' : q = (5, [(idA, 1)]) := by simpa [mFresh] using hq
      subst hq'
      have hp' : p = (idA, 1) := by simpa using hp
      subst hp'
      decide
  have hwf : IndexWF mFresh := by
    intro q hq p hp
    have hq' : q = (5, [(idA, 1)]) := by simpa [mFresh] using hq
    subst hq'
    have hp' : p = (idA, 1) := by simpa using hp
    subst hp'
    decide
  have h := ws_C4_amended mFresh 1 clientFreshA 0 rfl
  exact ⟨hcons, hwf, (h.2 hcons hwf (Or.inr rfl)).1, h.1.1⟩

/-- C5: an anonymous session (identity collaborator resolved no identity,
so UserID = 0) never receives an identity-targeted send: for any real
identity u (nonzero — 0 is the absent-identity marker, and every caller
guards userID against 0), SendToUser neither attempts an enqueue into the
anonymous session nor changes it in any way. -/
theorem ws_C5_anonymous_never_targeted (m : Manager) (u : Nat) (msg : Message) (r : Nat)
    (c : Client) (hwf : IndexWF m) (hc : heapGet m.heap r = some c)
    (hanon : c.UserID = 0) (hu : u ≠ 0) :
    r ∉ (SendToUser m u msg).2 ∧
      heapGet (SendToUser m u msg).1.heap r = heapGet m.heap r := by
  exact SendToUser_skips_anonymous m u msg r c hwf hc hanon hu

/-- Witness for C5 at the mixed state: the anonymous session 7 is not
among the targets of a send to identity 5. -/
theorem ws_C5_witness :
    IndexWF mMixed ∧ 7 ∉ (SendToUser mMixed 5 msgA).2 := by
  have hwf : IndexWF mMixed := by
    intro q hq p hp
    have hq' : q = (5, [(idA, 1)]) ∨ q = (0, [(idB, 7)]) := by simpa [mMixed] using hq
    rcases hq' with rfl | rfl
    · have hp' : p = (idA, 1) := by simpa using hp
      subst hp'
      decide
    · have hp' : p = (idB, 7) := by simpa using hp
      subst hp'
      decide
  have h := ws_C5_anonymous_never_targeted mMixed 5 msgA 7 clientAnon hwf rfl rfl
    (by decide)
  exact ⟨hwf, h.1⟩

/-- C6 counterexample: ids are not collision-free and the insert is not
collision-checked — two clock-reading sequences differing everywhere can
yield the same generated id, and registering a second session under an
already-registered id silently repoints the primary-map entry to the new
session while the old session's identity-index entry survives. -/
theorem ws_C6_counterexample :
    alookup (registerClient (registerClient mDupPre 1 0) 2 0).clients idA = some 2 ∧
    alookup (registerClient (registerClient mDupPre 1 0) 2 0).userClients 1 =
      some [(idA, 1)] ∧
    generateClientID (String.mk []) [0, 0, 0, 0, 0, 0, 0, 0] =
      generateClientID (String.mk []) [62, 62, 62, 62, 62, 62, 62, 62] ∧
    ([0, 0, 0, 0, 0, 0, 0, 0] == [62, 62, 62, 62, 62, 62, 62, 62]) = false := by
  decide

/-- C6 amended: registerClient performs a plain map assignment with no
collision check, so the primary map always ends up pointing the client's
id at the newly registered session, silently replacing any earlier
session registered under the same id. -/
theorem ws_C6_amended (m : Manager) (r : Nat) (c : Client) (now : Nat)
    (hc : heapGet m.heap r = some c) :
    alookup (registerClient m r now).clients c.ID = some r := by
  exact registerClient_clients_lookup m r now c hc

/-- Witness for C6 amended: the second same-id registration repoints the
entry to reference 2. -/
theorem ws_C6_witness :
    alookup (registerClient (registerClient mDupPre 1 0) 2 0).clients
      clientDupNew.ID = some 2 := by
  exact ws_C6_amended (registerClient mDupPre 1 0) 2 clientDupNew 0 rfl

/-- C7: SendToDevice attempts delivery to exactly the sessions of the
primary map whose subscription set contains the topic at call time — the
attempted-target list is precisely the filter of the clients map by
subscription — and with zero subscribers the call returns the state
unchanged and attempts nothing. -/
theorem ws_C7_sendToTopic_exact (m : Manager) (d : String) (msg : Message) :
    (SendToDevice m d msg).2 =
      (m.clients.filter (fun e => subscribedB m.heap e.2 d)).map (fun e => e.2) ∧
    ((∀ e ∈ m.clients, subscribedB m.heap e.2 d = false) →
      SendToDevice m d msg = (m, [])) := by
  exact ⟨SendToDevice_attempted m d msg, fun h => SendToDevice_noop m d msg h⟩

/-- Witness for C7: on mFresh the single d1 subscriber is targeted, and a
topic with no subscribers is a complete no-op. -/
theorem ws_C7_witness :
    (SendToDevice mFresh devD1 msgA).2 = [1] ∧
    SendToDevice mFresh devD2 msgA = (mFresh, []) := by
  have h1 := (ws_C7_sendToTopic_exact mFresh devD1 msgA).1
  have h2 := (ws_C7_sendToTopic_exact mFresh devD2 msgA).2 (by decide)
  exact ⟨h1.trans (by decide), h2⟩

/-- C8: SendToUser attempts delivery to exactly the sessions registered
under the given identity at call time — the attempted-target list is
precisely the identity's group in the index — and when no session is
registered under that identity the call returns the state unchanged and
attempts nothing, signalling no error. -/
theorem ws_C8_sendToIdentity_exact (m : Manager) (u : Nat) (msg : Message) :
    (SendToUser m u msg).2 = ((alookup m.userClients u).getD []).map (fun e => e.2) ∧
    (alookup m.userClients u = none → SendToUser m u msg = (m, [])) := by
  exact ⟨SendToUser_attempted m u msg, fun h => SendToUser_noop m u msg h⟩

/-- Witness for C8: identity 5 has exactly session 1 targeted on mFresh,
and an unknown identity is a silent no-op. -/
theorem ws_C8_witness :
    (SendToUser mFresh 5 msgA).2 = [1] ∧
    SendToUser mFresh 9 msgA = (mFresh, []) := by
  have h1 := (ws_C8_sendToIdentity_exact mFresh 5 msgA).1
  have h2 := (ws_C8_sendToIdentity_exact mFresh 9 msgA).2 (by decide)
  exact ⟨h1.trans (by decide), h2⟩

/-- C9: after a subscribe to topic d followed by an unsubscribe from d,
the session no longer subscribes to d, and any SendToDevice on a topic a
session does not subscribe to neither targets that session nor changes
its mailbox — so no further d-addressed messages reach it until it
subscribes again. -/
theorem ws_C9_unsubscribe_stops (m : Manager) (r : Nat) (d : String) (now1 now2 : Nat) :
    subscribedB (handleMessage (handleMessage m r now1 (subscribeMsg d)) r now2
      (unsubscribeMsg d)).heap r d = false ∧
    (∀ (m' : Manager) (r' : Nat) (d' : String) (msg' : Message),
      subscribedB m'.heap r' d' = false →
      r' ∉ (SendToDevice m' d' msg').2 ∧
        queueOf (SendToDevice m' d' msg').1.heap r' = queueOf m'.heap r') := by
  constructor
  · rw [handleMessage_unsub_eq, subscribedB_eq_subsOf]
    exact handleUnsubscribe_clears (handleMessage m r now1 (subscribeMsg d)) r d
  · exact fun m' r' d' msg' h => SendToDevice_skips_unsub m' r' d' msg' h

/-- Witness for C9 at mFresh: subscribe then unsubscribe d2 leaves
session 1 unsubscribed from d2, and a send to d2 does not target it. -/
theorem ws_C9_witness :
    subscribedB (handleMessage (handleMessage mFresh 1 0 (subscribeMsg devD2)) 1 0
      (unsubscribeMsg devD2)).heap 1 devD2 = false ∧
    1 ∉ (SendToDevice mFresh devD2 msgA).2 := by
  have h := ws_C9_unsubscribe_stops mFresh 1 devD2 0 0
  exact ⟨h.1, (h.2 mFresh 1 devD2 msgA (by decide)).1⟩

/-- C10: registerClient inserts the session into both maps and then
attempts a non-blocking enqueue of the Connected-successfully
notification; on a fresh (empty, open, positive-capacity) mailbox that
notification is the first and only queued item, and if the mailbox is
already saturated the enqueue fails, the channel is closed, and the
session is nonetheless left registered in both maps. -/
theorem ws_C10_welcome (m : Manager) (r : Nat) (c : Client) (now : Nat)
    (hc : heapGet m.heap r = some c) :
    alookup (registerClient m r now).clients c.ID = some r ∧
    (∃ sub, alookup (registerClient m r now).userClients c.UserID = some sub ∧
      alookup sub c.ID = some r) ∧
    (c.Send.queue = [] → c.Send.closed = false → 0 < c.Send.cap →
      queueOf (registerClient m r now).heap r = [welcomeMsg now]) ∧
    (isFull c.Send → closedOf (registerClient m r now).heap r = true) := by
  refine ⟨registerClient_clients_lookup m r now c hc,
    registerClient_userClients_lookup m r now c hc, ?_, ?_⟩
  · intro hq hcl hcap
    rw [registerClient_eq m r now c hc]
    have hok : (tryEnqueue c.Send (welcomeMsg now)).1 = true := by
      apply tryEnqueue_open_room _ hcl
      rw [hq]
      exact hcap
    rw [if_pos hok]
    show queueOf (heapSet m.heap r _) r = [welcomeMsg now]
    rw [queueOf_heapSet, if_pos rfl]
    show (tryEnqueue c.Send (welcomeMsg now)).2.queue = [welcomeMsg now]
    rw [tryEnqueue_success_queue hok, hq]
    rfl
  · intro hfull
    rw [registerClient_eq m r now c hc]
    rw [tryEnqueue_of_full (welcomeMsg now) hfull]
    rw [if_neg (by simp)]
    show closedOf (heapSet m.heap r _) r = true
    unfold closedOf
    rw [heapGet_heapSet, if_pos rfl]
    rfl

set_option maxRecDepth 8192 in
/-- Witness for C10: a fresh anonymous registration queues exactly the
welcome message, and registering the saturated client closes its mailbox
while both map entries exist. -/
theorem ws_C10_witness :
    queueOf (registerClient mAnonPre 7 0).heap 7 = [welcomeMsg 0] ∧
    closedOf (registerClient mFull 1 0).heap 1 = true ∧
    alookup (registerClient mFull 1 0).clients idA = some 1 := by
  have h1 := (ws_C10_welcome mAnonPre 7 clientAnon 0 rfl).2.2.1 rfl rfl (by decide)
  have h2 := ws_C10_welcome mFull 1 clientFullA 0 rfl
  have hfull : isFull clientFullA.Send := by
    unfold isFull clientFullA fullBox
    simp
  exact ⟨h1, h2.2.2.2 hfull, h2.1⟩
